import Mathlib

/-!
Verification development for the patch-lifecycle and comment-state subsystem of
the `ai-monitoring` GitHub-automation repository.

The Python sources are shallowly embedded as executable Lean definitions:

* `src/shared/comment_state.py` — the STATUS marker codec and trigger gate
  (`STATUS_RE`, `get_comment_state`, `is_analyzed_state`,
  `set_comment_state_body`, `_cmd_check`, `_cmd_set`);
* `src/libs/comment_parsing.py` and
  `src/actions/apply-suggested-logs/refresh_related_patches.py` — the
  ISSUE_DATA codec (`ISSUE_DATA_RE`, `extract_issue_data`,
  `replace_issue_data`), `parse_int_line`, `is_bot_issue_comment`, the
  downstream-candidate filter and the per-candidate refresh loop of `main`;
* `src/actions/analyze-pr-code/validate_patch.py` —
  `normalize_patch_newlines`, `validate_patch_format`,
  `fix_hunk_header_counts`, `fix_patch_format`;
* `src/actions/apply-suggested-logs/main.py` —
  `PatchApplier.verify_file_unchanged`, `PatchApplier._validate_patch_format`,
  `PatchApplier.apply_patch`.

Python strings are Lean `String`s; character indices coincide with Python's
string indices (both count unicode code points).  The two regular expressions
used by the sources (`STATUS_RE` and `ISSUE_DATA_RE`) are embedded as
special-purpose leftmost-match scanners whose backtracking behaviour on these
particular patterns is deterministic (each quantified class is disjoint from
the literal that follows it, except for the lazy `(.+?)` group, which is
implemented lazily).  `re.sub`'s processing of escape sequences in the
replacement template — which the source relies on in `STATUS_RE.sub` and
`ISSUE_DATA_RE.sub` — is embedded by `subTemplate`.  `json.loads` /
`json.dumps` are embedded for the JSON subset that appears in ISSUE_DATA
payloads (null, booleans, integers, strings with the standard escapes, arrays,
objects); floats and `\uXXXX` escapes are outside the modelled subset and make
the embedded parser fail, marked where relevant.  External effects (the
GitHub API, `git apply`, the Cursor CLI) are oracle parameters.
-/

/-! ### Python character classes and string helpers -/

/-- Python `\s` for ASCII input: space, tab, newline, carriage return,
vertical tab, form feed (also the character set of `str.strip`). -/
def isPySpace (c : Char) : Bool :=
  c == ' ' || c == '\t' || c == '\n' || c == '\r' || c == '\x0b' || c == '\x0c'

/-- Python `\w` for ASCII input: letters, digits, underscore. -/
def isWordChar (c : Char) : Bool :=
  c.isAlpha || c.isDigit || c == '_'

/-- Python `str.strip()` (ASCII whitespace). -/
def pyStrip (s : String) : String :=
  ((s.toList.dropWhile isPySpace).reverse.dropWhile isPySpace).reverse.asString

/-- Python `str.rstrip()` (ASCII whitespace). -/
def pyRstrip (s : String) : String :=
  ((s.toList.reverse.dropWhile isPySpace).reverse).asString

/-- Python `str.lstrip()` (ASCII whitespace). -/
def pyLstrip (s : String) : String :=
  (s.toList.dropWhile isPySpace).asString

/-- Match a literal character-list prefix, returning the remainder. -/
def dropLit : List Char → List Char → Option (List Char)
  | [], cs => some cs
  | _ :: _, [] => none
  | l :: ls, c :: cs => if l == c then dropLit ls cs else none

/-- Index of the first occurrence of `pat` in `cs` (Python `str.find` when the
pattern is non-empty). -/
def findSubAux (pat : List Char) : List Char → Nat → Option Nat
  | [], i => if pat.isEmpty then some i else none
  | c :: cs, i =>
    if (dropLit pat (c :: cs)).isSome then some i else findSubAux pat cs (i + 1)

def findSub (s pat : String) : Option Nat :=
  findSubAux pat.toList s.toList 0

/-- Python `pat in s` (substring containment). -/
def containsSub (s pat : String) : Bool :=
  (findSub s pat).isSome

/-- Python `s.replace(old, new, 1)`: replace the first occurrence only (the
string is returned unchanged when `old` does not occur). -/
def replaceFirst (s old new : String) : String :=
  match findSub s old with
  | none => s
  | some i =>
    ((s.toList.take i) ++ new.toList ++ (s.toList.drop (i + old.toList.length))).asString

/-- Value of a decimal digit list (most significant first). -/
def natOfDigits (ds : List Char) : Nat :=
  ds.foldl (fun acc c => acc * 10 + (c.toNat - '0'.toNat)) 0

/-- Python `int(v)` for a stripped string: optional sign, then digits possibly
separated by single underscores (`int("1_0") == 10`). -/
def pyIntDigits : List Char → Nat → Option Nat
  | [], acc => some acc
  | '_' :: c :: rest, acc =>
    if c.isDigit then pyIntDigits rest (acc * 10 + (c.toNat - '0'.toNat)) else none
  | '_' :: [], _ => none
  | c :: rest, acc =>
    if c.isDigit then pyIntDigits rest (acc * 10 + (c.toNat - '0'.toNat)) else none

def pyParseInt (s : String) : Option Int :=
  match s.toList with
  | '-' :: c :: rest =>
    if c.isDigit then (pyIntDigits rest (c.toNat - '0'.toNat)).map (fun n => -(n : Int)) else none
  | '+' :: c :: rest =>
    if c.isDigit then (pyIntDigits rest (c.toNat - '0'.toNat)).map (fun n => (n : Int)) else none
  | c :: rest =>
    if c.isDigit then (pyIntDigits rest (c.toNat - '0'.toNat)).map (fun n => (n : Int)) else none
  | [] => none

/-- Python `s.startswith(pre)` (structural, code-point based). -/
def pyStartsWith (s pre : String) : Bool :=
  (dropLit pre.toList s.toList).isSome

/-- Python `s.endswith(suf)` (structural, code-point based). -/
def pyEndsWith (s suf : String) : Bool :=
  (dropLit suf.toList.reverse s.toList.reverse).isSome

/-- Python `s[1:]`. -/
def strTail (s : String) : String :=
  (s.toList.drop 1).asString

/-- Python `s.split('\n')`: maximal split on every newline; `""` yields `[""]`. -/
def splitNlAux : List Char → List Char → List String
  | acc, [] => [acc.reverse.asString]
  | acc, '\n' :: rest => acc.reverse.asString :: splitNlAux [] rest
  | acc, c :: rest => splitNlAux (c :: acc) rest

def splitNl (s : String) : List String :=
  splitNlAux [] s.toList

/-- Python `'\n'.join(lines)`. -/
def joinNl : List String → String
  | [] => ""
  | [l] => l
  | l :: l' :: rest => l ++ "\n" ++ joinNl (l' :: rest)

/-- Python `s.replace('\\n', '\n')` (all occurrences, left to right). -/
def replaceEscapedNlAux : List Char → List Char
  | '\\' :: 'n' :: rest => '\n' :: replaceEscapedNlAux rest
  | c :: rest => c :: replaceEscapedNlAux rest
  | [] => []

def replaceEscapedNl (s : String) : String :=
  (replaceEscapedNlAux s.toList).asString

/-- Python `str.upper()` for ASCII input. -/
def pyUpper (s : String) : String :=
  (s.toList.map Char.toUpper).asString

/-- Python `str.lower()` for ASCII input. -/
def pyLower (s : String) : String :=
  (s.toList.map Char.toLower).asString

/-! ### The JSON value type of the ISSUE_DATA payloads

`PyJson` is the image of Python's `json.loads` on the modelled subset:
`null`/`True`/`False`/`int`/`str`/`list`/`dict`.  Object member lists carry
Python-dict semantics: keys are unique, insertion order is preserved, and a
repeated key keeps its first position with its last value. -/

inductive PyJson where
  | null
  | bool (b : Bool)
  | int (n : Int)
  | str (s : String)
  | arr (xs : List PyJson)
  | obj (fields : List (String × PyJson))

/-- `d[key] = val` on an ordered Python dict: update in place when the key
exists, append otherwise. -/
def objSet : List (String × PyJson) → String → PyJson → List (String × PyJson)
  | [], k, v => [(k, v)]
  | (k', v') :: rest, k, v =>
    if k' == k then (k', v) :: rest else (k', v') :: objSet rest k v

/-- `d.get(key)` on a Python dict (returns `None` when absent). -/
def metaGet (fields : List (String × PyJson)) (key : String) : Option PyJson :=
  (fields.find? (fun kv => kv.1 == key)).map (fun kv => kv.2)

/-! #### `json.loads` on the modelled subset -/

/-- JSON insignificant whitespace (space, tab, newline, carriage return). -/
def jsonSkipWs (cs : List Char) : List Char :=
  cs.dropWhile (fun c => c == ' ' || c == '\t' || c == '\n' || c == '\r')

/-- Parse the body of a JSON string literal (after the opening quote).  Python's
strict decoder rejects raw control characters; `\uXXXX` escapes are outside the
modelled subset and also fail. -/
def parseJsonStrAux : List Char → List Char → Option (String × List Char)
  | acc, '"' :: rest => some (acc.reverse.asString, rest)
  | acc, '\\' :: e :: rest =>
    match e with
    | '"' => parseJsonStrAux ('"' :: acc) rest
    | '\\' => parseJsonStrAux ('\\' :: acc) rest
    | '/' => parseJsonStrAux ('/' :: acc) rest
    | 'b' => parseJsonStrAux ('\x08' :: acc) rest
    | 'f' => parseJsonStrAux ('\x0c' :: acc) rest
    | 'n' => parseJsonStrAux ('\n' :: acc) rest
    | 'r' => parseJsonStrAux ('\r' :: acc) rest
    | 't' => parseJsonStrAux ('\t' :: acc) rest
    | _ => none
  | acc, c :: rest =>
    if c.toNat < 32 then none else parseJsonStrAux (c :: acc) rest
  | _, [] => none

/-- Parse a JSON integer literal: `-?(0|[1-9][0-9]*)`, not followed by a
fraction or exponent (floats are outside the modelled subset). -/
def parseJsonIntAux (cs : List Char) : Option (Nat × List Char) :=
  match cs with
  | '0' :: rest =>
    match rest with
    | c :: _ => if c.isDigit then none else some (0, rest)
    | [] => some (0, [])
  | c :: _ =>
    if c.isDigit then
      let ds := cs.takeWhile Char.isDigit
      some (natOfDigits ds, cs.dropWhile Char.isDigit)
    else none
  | [] => none

def parseJsonInt (cs : List Char) : Option (Int × List Char) :=
  match cs with
  | '-' :: rest =>
    (parseJsonIntAux rest).bind fun p =>
      match p.2 with
      | c :: _ => if c == '.' || c == 'e' || c == 'E' then none else some (-(p.1 : Int), p.2)
      | [] => some (-(p.1 : Int), [])
  | _ =>
    (parseJsonIntAux cs).bind fun p =>
      match p.2 with
      | c :: _ => if c == '.' || c == 'e' || c == 'E' then none else some ((p.1 : Int), p.2)
      | [] => some ((p.1 : Int), [])

mutual

def parseJsonVal : Nat → List Char → Option (PyJson × List Char)
  | 0, _ => none
  | Nat.succ fuel, cs =>
    match jsonSkipWs cs with
    | '{' :: rest =>
      match jsonSkipWs rest with
      | '}' :: rest' => some (.obj [], rest')
      | rest' => parseJsonFields fuel rest' []
    | '[' :: rest =>
      match jsonSkipWs rest with
      | ']' :: rest' => some (.arr [], rest')
      | rest' => parseJsonItems fuel rest' []
    | '"' :: rest => (parseJsonStrAux [] rest).map (fun p => (.str p.1, p.2))
    | 't' :: rest => (dropLit "rue".toList rest).map (fun r => (.bool true, r))
    | 'f' :: rest => (dropLit "alse".toList rest).map (fun r => (.bool false, r))
    | 'n' :: rest => (dropLit "ull".toList rest).map (fun r => (.null, r))
    | rest => (parseJsonInt rest).map (fun p => (.int p.1, p.2))

def parseJsonFields :
    Nat → List Char → List (String × PyJson) → Option (PyJson × List Char)
  | 0, _, _ => none
  | Nat.succ fuel, cs, acc =>
    match jsonSkipWs cs with
    | '"' :: rest =>
      match parseJsonStrAux [] rest with
      | none => none
      | some (key, rest') =>
        match jsonSkipWs rest' with
        | ':' :: rest'' =>
          match parseJsonVal fuel rest'' with
          | none => none
          | some (v, rest''') =>
            let acc' := objSet acc key v
            match jsonSkipWs rest''' with
            | ',' :: next => parseJsonFields fuel next acc'
            | '}' :: next => some (.obj acc', next)
            | _ => none
        | _ => none
    | _ => none

def parseJsonItems : Nat → List Char → List PyJson → Option (PyJson × List Char)
  | 0, _, _ => none
  | Nat.succ fuel, cs, acc =>
    match parseJsonVal fuel cs with
    | none => none
    | some (v, rest) =>
      match jsonSkipWs rest with
      | ',' :: next => parseJsonItems fuel next (v :: acc)
      | ']' :: next => some (.arr (v :: acc).reverse, next)
      | _ => none

end

/-- `json.loads` on the modelled subset: parse one value, then require only
whitespace to follow. -/
def jsonLoads (s : String) : Option PyJson :=
  match parseJsonVal (s.toList.length + 1) s.toList with
  | some (v, rest) => if (jsonSkipWs rest).isEmpty then some v else none
  | none => none

/-! #### `json.dumps(..., ensure_ascii=False, separators=(",", ":"))` -/

/-- Hex digit (lowercase), for `\u00XX` escapes of control characters. -/
def hexDigit (n : Nat) : Char :=
  if n < 10 then Char.ofNat ('0'.toNat + n) else Char.ofNat ('a'.toNat + (n - 10))

/-- Escape one character of a JSON string the way `json.dumps` does with
`ensure_ascii=False`: only `"`/`\`/control characters are escaped. -/
def jsonEscapeChar (c : Char) : List Char :=
  if c == '"' then ['\\', '"']
  else if c == '\\' then ['\\', '\\']
  else if c == '\n' then ['\\', 'n']
  else if c == '\t' then ['\\', 't']
  else if c == '\r' then ['\\', 'r']
  else if c == '\x08' then ['\\', 'b']
  else if c == '\x0c' then ['\\', 'f']
  else if c.toNat < 32 then
    ['\\', 'u', '0', '0', hexDigit (c.toNat / 16), hexDigit (c.toNat % 16)]
  else [c]

def jsonDumpStr (s : String) : String :=
  ("\"".toList ++ s.toList.foldr (fun c acc => jsonEscapeChar c ++ acc) [] ++ "\"".toList).asString

mutual

def jsonDump : PyJson → String
  | .null => "null"
  | .bool b => if b then "true" else "false"
  | .int n => toString n
  | .str s => jsonDumpStr s
  | .arr xs => "[" ++ jsonDumpList xs ++ "]"
  | .obj fs => "\x7b" ++ jsonDumpFields fs ++ "\x7d"

def jsonDumpList : List PyJson → String
  | [] => ""
  | [x] => jsonDump x
  | x :: y :: rest => jsonDump x ++ "," ++ jsonDumpList (y :: rest)

def jsonDumpFields : List (String × PyJson) → String
  | [] => ""
  | [(k, v)] => jsonDumpStr k ++ ":" ++ jsonDump v
  | (k, v) :: kv :: rest => jsonDumpStr k ++ ":" ++ jsonDump v ++ "," ++ jsonDumpFields (kv :: rest)

end

/-! ### The two regular expressions of the sources

`STATUS_RE = <!--\s*STATUS:\s*(\w+)\s*-->` and
`ISSUE_DATA_RE = <!--\s*ISSUE_DATA:\s*(.+?)\s*-->` (DOTALL) are embedded as
leftmost-match scanners.  On these patterns Python's backtracking is
deterministic: every greedy `\s*`/`\w+` is followed by a literal that its
character class cannot begin, so maximal munch is exact, and the lazy `(.+?)`
group is implemented shortest-first.  A match is reported as
`(start, end, group 1)` in code-point indices, as in Python. -/

/-- Try to match `STATUS_RE` anchored at the head of `cs`; on success return
the match length and group 1 (the `\w+` state word). -/
def statusMatchAt (cs : List Char) : Option (Nat × String) :=
  match dropLit "<!--".toList cs with
  | none => none
  | some r0 =>
    match dropLit "STATUS:".toList (r0.dropWhile isPySpace) with
    | none => none
    | some r2 =>
      let r3 := r2.dropWhile isPySpace
      let w := r3.takeWhile isWordChar
      if w.isEmpty then none
      else
        match dropLit "-->".toList ((r3.dropWhile isWordChar).dropWhile isPySpace) with
        | none => none
        | some r6 => some (cs.length - r6.length, w.asString)

def statusFindAux : List Char → Nat → Option (Nat × Nat × String)
  | [], _ => none
  | c :: rest, i =>
    match statusMatchAt (c :: rest) with
    | some (len, w) => some (i, i + len, w)
    | none => statusFindAux rest (i + 1)

/-- `STATUS_RE.search(s)`: leftmost match as `(start, end, group 1)`. -/
def statusFind (s : String) : Option (Nat × Nat × String) :=
  statusFindAux s.toList 0

/-- The lazy group of `ISSUE_DATA_RE`: starting after `ISSUE_DATA:\s*`, find the
shortest non-empty prefix (the group) whose remainder matches `\s*-->`; return
the reversed group and the length remaining after the whole match. -/
def issueDataLazyGroup : List Char → List Char → Option (List Char × Nat)
  | acc, rest =>
    match acc, dropLit "-->".toList (rest.dropWhile isPySpace) with
    | _ :: _, some r => some (acc, r.length)
    | _, _ =>
      match rest with
      | [] => none
      | c :: rs => issueDataLazyGroup (c :: acc) rs

/-- Try to match `ISSUE_DATA_RE` anchored at the head of `cs`; on success
return the match length and group 1. -/
def issueDataMatchAt (cs : List Char) : Option (Nat × String) :=
  match dropLit "<!--".toList cs with
  | none => none
  | some r0 =>
    match dropLit "ISSUE_DATA:".toList (r0.dropWhile isPySpace) with
    | none => none
    | some r2 =>
      match issueDataLazyGroup [] (r2.dropWhile isPySpace) with
      | none => none
      | some (accRev, remaining) => some (cs.length - remaining, accRev.reverse.asString)

def issueDataFindAux : List Char → Nat → Option (Nat × Nat × String)
  | [], _ => none
  | c :: rest, i =>
    match issueDataMatchAt (c :: rest) with
    | some (len, w) => some (i, i + len, w)
    | none => issueDataFindAux rest (i + 1)

/-- `ISSUE_DATA_RE.search(s)`: leftmost match as `(start, end, group 1)`. -/
def issueDataFind (s : String) : Option (Nat × Nat × String) :=
  issueDataFindAux s.toList 0

/-- `re.sub`'s processing of the replacement template (CPython
`sre_parse.parse_template`): `\a \b \f \n \r \t \v` become control characters,
`\\` becomes a backslash, an unknown escape of a non-alphanumeric keeps both
characters, and an unknown escape of an ASCII letter, a group reference
(`\1`, `\g<...>`) or a trailing backslash is an error (group references never
arise from the replacements the source builds, so they are not modelled
further).  `none` models the raised error. -/
def subTemplate : List Char → Option (List Char)
  | [] => some []
  | '\\' :: [] => none
  | '\\' :: c :: rest =>
    if c == '\\' then (subTemplate rest).map (fun t => '\\' :: t)
    else if c == 'a' then (subTemplate rest).map (fun t => '\x07' :: t)
    else if c == 'b' then (subTemplate rest).map (fun t => '\x08' :: t)
    else if c == 'f' then (subTemplate rest).map (fun t => '\x0c' :: t)
    else if c == 'n' then (subTemplate rest).map (fun t => '\n' :: t)
    else if c == 'r' then (subTemplate rest).map (fun t => '\r' :: t)
    else if c == 't' then (subTemplate rest).map (fun t => '\t' :: t)
    else if c == 'v' then (subTemplate rest).map (fun t => '\x0b' :: t)
    else if c.isAlpha || c.isDigit || c == 'g' then none
    else (subTemplate rest).map (fun t => '\\' :: c :: t)
  | c :: rest => (subTemplate rest).map (fun t => c :: t)

/-- Splice a processed replacement over the match region `[s, e)` (the core of
`re.sub(..., count=1)` once the leftmost match is known). -/
def spliceRange (body : String) (s e : Nat) (repl : List Char) : String :=
  (body.toList.take s ++ repl ++ body.toList.drop e).asString

/-! ### `src/shared/comment_state.py` -/

def COMMENT_STATES : List String := ["analyzed", "applied", "gc-integrated"]

def APPLY_LOGS_LINE : String :=
  "Reply with `/apply-logs` to apply this change automatically."

def APPLIED_LINE : String := "✅ Applied"

/-- `status_marker(state)`; the source raises `ValueError` for a state outside
`COMMENT_STATES`, a guard repeated by its caller `set_comment_state_body`,
where it is modelled. -/
def statusMarker (state : String) : String :=
  "<!-- STATUS: " ++ state ++ " -->"

/-- `get_comment_state(body)`: `None` for an empty body, no `STATUS_RE` match,
or a state word outside `COMMENT_STATES` (after `strip().lower()`). -/
def getCommentState (body : String) : Option String :=
  if body == "" then none
  else
    match statusFind body with
    | none => none
    | some (_, _, w) =>
      let state := pyLower (pyStrip w)
      if COMMENT_STATES.contains state then some state else none

/-- `is_analyzed_state(body)`. -/
def isAnalyzedState (body : String) : Bool :=
  match getCommentState body with
  | none => true
  | some s => s == "analyzed"

/-- `set_comment_state_body(body, new_state)`.  `none` models the
`ValueError` raised for an invalid state (and the unreachable template
error of `STATUS_RE.sub`). -/
def setCommentStateBody (body newState : String) : Option String :=
  if !(COMMENT_STATES.contains newState) then none
  else
    let marker := statusMarker newState
    let withMarker : Option String :=
      match statusFind body with
      | some (s, e, _) => (subTemplate marker.toList).map (spliceRange body s e)
      | none => some (pyRstrip body ++ "\n\n" ++ marker ++ "\n")
    withMarker.map fun newBody =>
      if newState == "applied" && containsSub newBody APPLY_LOGS_LINE then
        let b1 := replaceFirst newBody (APPLY_LOGS_LINE ++ "\n\n") (APPLIED_LINE ++ "\n\n")
        if containsSub b1 APPLY_LOGS_LINE then replaceFirst b1 APPLY_LOGS_LINE APPLIED_LINE
        else b1
      else newBody

/-- The state gate of `_cmd_check`: `should_apply` is `false` exactly when the
parent body's decoded state is `applied` or `gc-integrated` (lines 123–127). -/
def checkShouldApply (parentBody : String) : Bool :=
  match getCommentState parentBody with
  | some s => !(s == "applied" || s == "gc-integrated")
  | none => true

/-- The write guard of `_cmd_set` (lines 160–165): the comment-update PATCH is
issued unless the currently decoded state already equals the requested state. -/
def cmdSetWrites (body state : String) : Bool :=
  !(getCommentState body == some state)

/-! ### ISSUE_DATA codec
(`src/libs/comment_parsing.py` and `refresh_related_patches.py` lines 160–181) -/

/-- `extract_issue_data(comment_body)`: find the `ISSUE_DATA_RE` match, parse
group 1 as JSON, retrying on the stripped group; `None` when absent or
unparseable. -/
def extractIssueData (body : String) : Option PyJson :=
  match issueDataFind body with
  | none => none
  | some (_, _, raw) =>
    match jsonLoads raw with
    | some j => some j
    | none => jsonLoads (pyStrip raw)

/-- `replace_issue_data(comment_body, new_metadata)`: serialize compactly and
substitute over the first `ISSUE_DATA_RE` match.  The serialized JSON is passed
to `re.sub` as a replacement template, so its escape sequences are processed by
`subTemplate`.  `none` models the `ValueError` raised when no block exists (and
the template error `re.sub` raises on a `\uXXXX` escape). -/
def replaceIssueData (body : String) (newMetadata : PyJson) : Option String :=
  let replacement := "<!-- ISSUE_DATA: " ++ jsonDump newMetadata ++ " -->"
  match issueDataFind body with
  | none => none
  | some (s, e, _) => (subTemplate replacement.toList).map (spliceRange body s e)

/-- `parse_int_line(value)` (`refresh_related_patches.py` lines 184–197), on a
decoded JSON value.  A Python `bool` is an `int` (`True == 1`), so the bool
case returns 1/0; `null` hits the `value is None` early return. -/
def parseIntLine : PyJson → Option Int
  | .null => none
  | .bool b => some (if b then 1 else 0)
  | .int n => some n
  | .str s =>
    let v := pyStrip s
    if v == "" || pyUpper v == "N/A" then none else pyParseInt v
  | _ => none

/-- `parse_int_line(meta.get("line"))`: a missing key is Python `None`. -/
def parseIntLineOpt : Option PyJson → Option Int
  | none => none
  | some j => parseIntLine j

/-! ### Refresh engine (`refresh_related_patches.py`) -/

/-- One PR review comment as the refresh engine sees it (the `ReviewComment`
dataclass; `path` is carried but unused by the candidate filter). -/
structure ReviewComment where
  id : Int
  body : String
  path : Option String
  userLogin : Option String
deriving DecidableEq

/-- `is_bot_issue_comment(comment)` (lines 54–71). -/
def isBotIssueComment (c : ReviewComment) : Bool :=
  if !(containsSub c.body "ISSUE_DATA") then false
  else if containsSub c.body "Reply with `/apply-logs`" then true
  else if pyStartsWith (pyLstrip c.body) "**🤖" then true
  else
    match c.userLogin with
    | some u => pyEndsWith u "[bot]"
    | none => false

/-- One iteration of the candidate filter loop of `main` (lines 472–489): the
chain of `continue`s, in source order.  A non-object ISSUE_DATA payload would
raise `AttributeError` on `meta.get` in the source (outside the modelled
inputs); it yields `none` here. -/
def candidateEntry (appliedFile : String) (appliedLine : Int) (appliedId : Option Int)
    (c : ReviewComment) : Option (ReviewComment × List (String × PyJson) × Int) :=
  if !(isBotIssueComment c) then none
  else
    match extractIssueData c.body with
    | some (.obj meta) =>
      if !(match metaGet meta "file" with
           | some (.str f) => f == appliedFile
           | _ => false) then none
      else
        match parseIntLineOpt (metaGet meta "line") with
        | none => none
        | some n =>
          if (match appliedId with
              | some aid => c.id == aid
              | none => false) then none
          else if n ≤ appliedLine then none
          else some (c, meta, n)
    | some _ => none
    | none => none

/-- The candidate list built by the filter loop (before the ascending sort of
line 491, which permutes but never adds or removes entries, and before the
`--max-comments` cap of lines 496–498). -/
def refreshCandidates (appliedFile : String) (appliedLine : Int) (appliedId : Option Int)
    (comments : List ReviewComment) : List (ReviewComment × List (String × PyJson) × Int) :=
  comments.filterMap (candidateEntry appliedFile appliedLine appliedId)

/-- The comments of the candidate list. -/
def candidateComments (appliedFile : String) (appliedLine : Int) (appliedId : Option Int)
    (comments : List ReviewComment) : List ReviewComment :=
  (refreshCandidates appliedFile appliedLine appliedId comments).map (fun t => t.1)

/-! ### Patch validation (`src/actions/analyze-pr-code/validate_patch.py`) -/

/-- `normalize_patch_newlines(patch)`: turn literal `\n` escapes into real
newlines exactly when the patch has escapes but no real newline. -/
def normalizePatchNewlines (patch : String) : String :=
  if patch == "" then patch
  else if containsSub patch "\\n" && !(containsSub patch "\n") then
    replaceEscapedNl patch
  else patch

/-- `re.search(r'@@.*@@', patch)` (no DOTALL): since `.` excludes the newline
and `@@` contains none, a match exists iff some line has two occurrences of
`@@` whose starts are at least 2 apart. -/
def lineHasAtAtPair (l : String) : Bool :=
  match findSub l "@@" with
  | none => false
  | some i => (findSubAux "@@".toList (l.toList.drop (i + 2)) 0).isSome

def hasAtAtPair (s : String) : Bool :=
  (splitNl s).any lineHasAtAtPair

/-- `validate_patch_format(patch)` (lines 32–68): non-blank, has an `@@...@@`
hunk header, and at least one non-empty non-header line starting with `+` or
`-`. -/
def validatePatchFormat (patch : String) : Bool :=
  if patch == "" || pyStrip patch == "" then false
  else
    let patch := normalizePatchNewlines patch
    if !(hasAtAtPair patch) then false
    else
      (splitNl patch).any fun l =>
        !(l == "" || pyStartsWith l "@@") && (pyStartsWith l "+" || pyStartsWith l "-")

/-- The hunk-header pattern `@@\s+-(\d+),?(\d+)?\s+\+(\d+),?(\d+)?\s+@@` via
`re.match` (anchored at the line start); only groups 1 and 3 (the start lines)
are used by the source.  Greedy matching is deterministic here: every
quantified class is disjoint from what follows it. -/
def parseHunkHeader (l : String) : Option (Nat × Nat) :=
  match dropLit "@@".toList l.toList with
  | none => none
  | some r0 =>
    match r0 with
    | c0 :: _ =>
      if !(isPySpace c0) then none
      else
        match r0.dropWhile isPySpace with
        | '-' :: r2 =>
          let ds1 := r2.takeWhile Char.isDigit
          if ds1.isEmpty then none
          else
            let r3 := r2.dropWhile Char.isDigit
            let r4 := match r3 with
              | ',' :: t => t
              | _ => r3
            let r5 := r4.dropWhile Char.isDigit
            match r5 with
            | c5 :: _ =>
              if !(isPySpace c5) then none
              else
                match r5.dropWhile isPySpace with
                | '+' :: r7 =>
                  let ds3 := r7.takeWhile Char.isDigit
                  if ds3.isEmpty then none
                  else
                    let r8 := r7.dropWhile Char.isDigit
                    let r9 := match r8 with
                      | ',' :: t => t
                      | _ => r8
                    let r10 := r9.dropWhile Char.isDigit
                    match r10 with
                    | c10 :: _ =>
                      if !(isPySpace c10) then none
                      else
                        match dropLit "@@".toList (r10.dropWhile isPySpace) with
                        | some _ => some (natOfDigits ds1, natOfDigits ds3)
                        | none => none
                    | [] => none
                | _ => none
            | [] => none
        | _ => none
    | [] => none

/-- The counting loop of `fix_hunk_header_counts` (lines 99–122): count
`-`/`+`/space-prefixed lines following a header, skipping whitespace-only
lines, stopping at the next `@@` line; lines with any other prefix are not
counted at all. -/
def hunkCounts : List String → Nat × Nat
  | [] => (0, 0)
  | l :: rest =>
    if pyStartsWith l "@@" then (0, 0)
    else
      let p := hunkCounts rest
      if pyStrip l == "" then p
      else if pyStartsWith l "-" then (p.1 + 1, p.2)
      else if pyStartsWith l "+" then (p.1, p.2 + 1)
      else if pyStartsWith l " " then (p.1 + 1, p.2 + 1)
      else p

/-- The rewritten header `@@ -{oldStart},{oldCount} +{newStart},{newCount} @@`. -/
def mkFixedHeader (oldStart newStart : Nat) (counts : Nat × Nat) : String :=
  "@@ -" ++ toString oldStart ++ "," ++ toString counts.1 ++ " +" ++
    toString newStart ++ "," ++ toString counts.2 ++ " @@"

/-- The line rewriting of `fix_hunk_header_counts` (lines 88–134): each
parseable `@@` header is replaced by a header with recomputed counts; all
other lines pass through. -/
def fixHeaders : List String → List String
  | [] => []
  | l :: rest =>
    (if pyStartsWith l "@@" then
       match parseHunkHeader l with
       | some (os, ns) => mkFixedHeader os ns (hunkCounts rest)
       | none => l
     else l) :: fixHeaders rest

/-- `fix_hunk_header_counts(patch)` at string level (with its blank guard). -/
def fixHunkHeaderCounts (patch : String) : String :=
  if patch == "" || pyStrip patch == "" then patch
  else joinNl (fixHeaders (splitNl patch))

/-- The prefixing pass of `fix_patch_format` (lines 155–183): after the first
hunk header, a non-blank line lacking a `+`/`-`/space prefix gets a leading
space; headers, pre-hunk lines and whitespace-only lines pass through. -/
def prefixLines : Bool → List String → List String
  | _, [] => []
  | inHunk, l :: rest =>
    if pyStartsWith l "@@" then l :: prefixLines true rest
    else if !inHunk then l :: prefixLines inHunk rest
    else if pyStrip l == "" then l :: prefixLines inHunk rest
    else if pyStartsWith l "+" || pyStartsWith l "-" || pyStartsWith l " " then
      l :: prefixLines inHunk rest
    else (" " ++ l) :: prefixLines inHunk rest

/-- The two passes of `fix_patch_format` at line level (the source joins with
`"\n"` between them and re-splits; no pass introduces a newline into a line,
so the composition acts line by line). -/
def fixPatchLines (lines : List String) : List String :=
  fixHeaders (prefixLines false lines)

/-- `fix_patch_format(patch)` (lines 138–190): blank guard, newline
normalization, prefixing pass, then `fix_hunk_header_counts` on the joined
result. -/
def fixPatchFormat (patch : String) : String :=
  if patch == "" || pyStrip patch == "" then patch
  else
    let patch := normalizePatchNewlines patch
    fixHunkHeaderCounts (joinNl (prefixLines false (splitNl patch)))

/-! ### Patch applier (`src/actions/apply-suggested-logs/main.py`) -/

/-- `PatchApplier.verify_file_unchanged(file_path, expected_hash)`: the file
exists and its current SHA-256 content hash equals the expected one (hashes
are abstract strings here). -/
def verifyFileUnchanged (fileExists : Bool) (currentHash expectedHash : String) : Bool :=
  fileExists && currentHash == expectedHash

/-- The no-op scan of `PatchApplier._validate_patch_format` (lines 115–131):
an adjacent pair of a `-` line and a `+` line with byte-identical content
after the prefix. -/
def noopScan : List String → Bool
  | a :: b :: rest =>
    (pyStartsWith a "-" && pyStartsWith b "+" && strTail a == strTail b) || noopScan (b :: rest)
  | _ => false

/-- `PatchApplier._validate_patch_format(patch_content)` (lines 92–133),
with the diagnostic messages abbreviated (only the boolean is consumed). -/
def mainValidatePatchFormat (patch : String) : Bool × String :=
  match splitNl patch with
  | [] => (false, "Patch is empty")
  | lines =>
    if !(lines.any (fun l => pyStartsWith l "@@")) then
      (false, "Patch is missing @@ hunk header")
    else if noopScan lines then (false, "Patch contains no-op change")
    else (true, "")

/-- Result of `PatchApplier.apply_patch`: which of its return paths fired. -/
inductive ApplyResult where
  | notFound
  | malformed
  | applied
  | applyFailed
deriving DecidableEq

/-- `PatchApplier.apply_patch(file_path, patch_content, file_hash)` (lines
135–243): existence check, format validation, file-header synthesis, then
`git apply` (the external `git` is the oracle `gitApply`, applied to the tmp
file's patch text).  As in the source, `fileHash` is accepted but never
consulted. -/
def applyPatch (fileExists : Bool) (filePath patchContent : String)
    (fileHash : Option String) (gitApply : String → Bool) : ApplyResult :=
  if !fileExists then .notFound
  else if !(mainValidatePatchFormat patchContent).1 then .malformed
  else
    let fullPatch :=
      if !(pyStartsWith patchContent "---") then
        "--- a/" ++ filePath ++ "\n+++ b/" ++ filePath ++ "\n" ++ patchContent
      else patchContent
    if gitApply fullPatch then .applied else .applyFailed

/-! ### Refresh batch loop (`refresh_related_patches.py` `main`, lines 519–580) -/

/-- `normalize_and_fix_patch(patch)` (lines 308–313, with patch validation
available). -/
def normalizeAndFixPatch (patch : String) : String :=
  fixPatchFormat (normalizePatchNewlines patch)

/-- `validate_patch_or_raise(patch)` (lines 316–324) as a boolean: non-blank,
passes `validate_patch_format`, and contains `@@`. -/
def validatePatchOrOk (patch : String) : Bool :=
  !(patch == "" || pyStrip patch == "") && validatePatchFormat patch &&
    containsSub patch "@@"

/-- What one `cursor.send_message` call produced: an exception, or a decoded
value (a JSON value, with Python `str` results as `.str`). -/
inductive CursorRes where
  | exn
  | ret (r : PyJson)

/-- `extract_patch_from_cursor_result(result)` (lines 279–305). -/
def fallbackText (text : String) : Option String :=
  if text == "" then none else some text

def objInnerPatch (fs : List (String × PyJson)) : Option String :=
  match metaGet fs "result" with
  | some (.obj fs') =>
    match metaGet fs' "patch" with
    | some (.str p) => if pyStrip p == "" then none else some p
    | _ => none
  | _ => none

def extractPatchFromCursorResult : PyJson → Option String
  | .obj fs =>
    (match metaGet fs "patch" with
     | some (.str p) => if pyStrip p == "" then objInnerPatch fs else some p
     | _ => objInnerPatch fs)
  | .str s =>
    let text := pyStrip s
    (match jsonLoads text with
     | some (.obj fs) =>
       (match metaGet fs "patch" with
        | some (.str p) => some p
        | _ => fallbackText text)
     | _ => fallbackText text)
  | _ => none

/-- The per-candidate outcome recorded by the loop counters: which counter was
incremented, the comment it concerned, and (for `updated`) the body written by
the comment-update PATCH. -/
inductive RefreshOutcome where
  | updated (id : Int) (newBody : String)
  | skipped (id : Int)
  | failed (id : Int)
deriving DecidableEq

def outcomeId : RefreshOutcome → Int
  | .updated i _ => i
  | .skipped i => i
  | .failed i => i

def isFailedOutcome : RefreshOutcome → Bool
  | .failed _ => true
  | _ => false

/-- One iteration of the refresh loop (lines 523–573), from the
`cursor.send_message` result to the recorded outcome.  `cr` is the cursor
call's outcome (`.exn` for a raised exception — caught by the `except` arm)
and `gitOk` the `git apply --check` verdict on the normalized patch. -/
def processCandidate (cr : CursorRes) (gitOk : Bool) (currentHash : String)
    (c : ReviewComment) (meta : List (String × PyJson)) : RefreshOutcome :=
  match cr with
  | .exn => .failed c.id
  | .ret r =>
    match extractPatchFromCursorResult r with
    | none => .failed c.id
    | some p0 =>
      if p0 == "" then .failed c.id
      else
        let patch := normalizeAndFixPatch p0
        if !(validatePatchOrOk patch) then .failed c.id
        else if !gitOk then .failed c.id
        else
          let newMeta := objSet (objSet meta "patch" (.str patch)) "file_hash" (.str currentHash)
          match replaceIssueData c.body (.obj newMeta) with
          | none => .failed c.id
          | some newBody =>
            if newBody == c.body then .skipped c.id else .updated c.id newBody

/-- The refresh loop over the candidate list: each candidate is attempted in
order and contributes exactly one outcome; no outcome interrupts the walk.
`env i` is the external behaviour (cursor outcome, dry-run verdict) for the
`i`-th candidate. -/
def runRefreshAux (env : Nat → CursorRes × Bool) (currentHash : String) :
    Nat → List (ReviewComment × List (String × PyJson) × Int) → List RefreshOutcome
  | _, [] => []
  | i, (c, m, _) :: rest =>
    processCandidate (env i).1 (env i).2 currentHash c m ::
      runRefreshAux env currentHash (i + 1) rest

def runRefresh (env : Nat → CursorRes × Bool) (currentHash : String)
    (cands : List (ReviewComment × List (String × PyJson) × Int)) : List RefreshOutcome :=
  runRefreshAux env currentHash 0 cands

/-- The `Failed comments` counter of the summary (lines 521, 542–573, 578). -/
def countFailed (outs : List RefreshOutcome) : Nat :=
  outs.countP (fun o => isFailedOutcome o)

/-- Line 580 of the source, verbatim: `return 0 if failed == 0 else 0`. -/
def refreshExitCode (failed : Nat) : Nat :=
  if failed == 0 then 0 else 0

/-- The body a comment ends up with after its outcome: only an `updated`
outcome carries a comment-update PATCH; every other outcome leaves the stored
body alone. -/
def finalBody (c : ReviewComment) : RefreshOutcome → String
  | .updated _ nb => nb
  | _ => c.body

/-- The lines of a patch after its first hunk header (the region the prefixing
pass of `fix_patch_format` operates on). -/
def afterFirstHeader : List String → List String
  | [] => []
  | l :: rest => if pyStartsWith l "@@" then rest else afterFirstHeader rest

/-- A structurally well-formed patch line: prefixed (`+`/`-`/space), a hunk
header, or whitespace-only. -/
def goodLine (l : String) : Bool :=
  pyStartsWith l "+" || pyStartsWith l "-" || pyStartsWith l " " ||
    pyStartsWith l "@@" || (pyStrip l == "")

/-! ### Concrete inputs used by the counterexamples and witnesses -/

/-- A bot issue comment on file `F` line 20 that is already in `applied`
state (its STATUS marker decodes to `applied`). -/
def appliedStateBody : String :=
  "**🤖 x\n<!-- ISSUE_DATA: \x7b\"file\":\"F\",\"line\":20\x7d -->\n<!-- STATUS: applied -->"

def appliedStateComment : ReviewComment :=
  ⟨99, appliedStateBody, some "F", some "ai[bot]"⟩

/-- A bot issue comment on file `F` line 20 whose id (7) equals the applied
parent comment id passed to the refresh run. -/
def sameIdBody : String :=
  "**🤖 y\n<!-- ISSUE_DATA: \x7b\"file\":\"F\",\"line\":20\x7d -->"

def sameIdComment : ReviewComment :=
  ⟨7, sameIdBody, some "F", some "ai[bot]"⟩

/-- A comment fed to the refresh loop witness. -/
def refreshComment (id : Int) (line : Int) : ReviewComment :=
  ⟨id, "**🤖 c\n<!-- ISSUE_DATA: \x7b\"file\":\"F\",\"line\":" ++ toString line ++ "\x7d -->",
    some "F", some "ai[bot]"⟩

def refreshMeta (line : Int) : List (String × PyJson) :=
  [("file", .str "F"), ("line", .int line)]

/-- Three downstream candidates for the batch-isolation witness. -/
def batchCandidates : List (ReviewComment × List (String × PyJson) × Int) :=
  [(refreshComment 11 12, refreshMeta 12, 12),
   (refreshComment 22 15, refreshMeta 15, 15),
   (refreshComment 33 18, refreshMeta 18, 18)]

/-- External behaviour for the batch witness: every cursor call returns a
valid patch, but the second candidate's dry-run `git apply --check` fails. -/
def batchEnv (i : Nat) : CursorRes × Bool :=
  (.ret (.obj [("patch", .str "@@ -1,1 +1,1 @@\n-a\n+b")]), !(i == 1))

/-- A plain downstream bot issue comment (id 42, file `F`, line 30). -/
def downstreamComment : ReviewComment :=
  ⟨42, "**🤖 z\n<!-- ISSUE_DATA: \x7b\"file\":\"F\",\"line\":30\x7d -->", some "F", some "ai[bot]"⟩

/-! ### Helper lemmas -/

theorem candidateEntry_eq_some_iff (f : String) (l : Int) (idOpt : Option Int)
    (c : ReviewComment) (t : ReviewComment × List (String × PyJson) × Int) :
    candidateEntry f l idOpt c = some t ↔
      ∃ meta n, t = (c, meta, n) ∧ isBotIssueComment c = true ∧
        extractIssueData c.body = some (.obj meta) ∧
        metaGet meta "file" = some (.str f) ∧
        parseIntLineOpt (metaGet meta "line") = some n ∧
        (∀ aid, idOpt = some aid → c.id ≠ aid) ∧ l < n := by
  constructor
  · intro h
    unfold candidateEntry at h
    by_cases hbot : isBotIssueComment c
    case neg => simp [hbot] at h
    simp only [hbot, Bool.not_true, Bool.false_eq_true, if_false] at h
    cases hex : extractIssueData c.body with
    | none => simp [hex] at h
    | some j =>
      cases j with
      | null => simp [hex] at h
      | bool b => simp [hex] at h
      | int m => simp [hex] at h
      | str s => simp [hex] at h
      | arr xs => simp [hex] at h
      | obj meta =>
        simp only [hex] at h
        cases hmf : metaGet meta "file" with
        | none => simp [hmf] at h
        | some v =>
          cases v with
          | null => simp [hmf] at h
          | bool b => simp [hmf] at h
          | int m => simp [hmf] at h
          | arr xs => simp [hmf] at h
          | obj ms => simp [hmf] at h
          | str f' =>
            by_cases hf : f' = f
            case neg => simp [hmf, hf] at h
            subst hf
            simp only [hmf, beq_self_eq_true, Bool.not_true, Bool.false_eq_true, if_false] at h
            cases hline : parseIntLineOpt (metaGet meta "line") with
            | none => simp [hline] at h
            | some n =>
              simp only [hline] at h
              cases idOpt with
              | none =>
                simp only [Bool.false_eq_true, if_false] at h
                by_cases hle : n ≤ l
                case pos => simp [hle] at h
                rw [if_neg hle] at h
                exact ⟨meta, n, (Option.some.inj h).symm, hbot, rfl, hmf, hline,
                  fun aid haid => absurd haid (by simp), by omega⟩
              | some aid =>
                by_cases haid : c.id = aid
                case pos => simp [haid] at h
                simp only [show (c.id == aid) = false from by simpa using haid,
                  Bool.false_eq_true, if_false] at h
                by_cases hle : n ≤ l
                case pos => simp [hle] at h
                rw [if_neg hle] at h
                refine ⟨meta, n, (Option.some.inj h).symm, hbot, rfl, hmf, hline, ?_, by omega⟩
                intro aid' haid'
                cases haid'
                exact haid
  · rintro ⟨meta, n, rfl, hbot, hex, hfile, hline, hid, hlt⟩
    have hnle : ¬ n ≤ l := by omega
    unfold candidateEntry
    cases idOpt with
    | none =>
      simp only [hbot, Bool.not_true, Bool.false_eq_true, if_false, hex, hfile, hline,
        beq_self_eq_true]
      rw [if_neg hnle]
    | some aid =>
      have haid : (c.id == aid) = false := by simpa using hid aid rfl
      simp only [hbot, Bool.not_true, Bool.false_eq_true, if_false, hex, hfile, hline,
        beq_self_eq_true, haid]
      rw [if_neg hnle]

theorem mem_candidateComments_iff (f : String) (l : Int) (idOpt : Option Int)
    (comments : List ReviewComment) (c : ReviewComment) :
    c ∈ candidateComments f l idOpt comments ↔
      c ∈ comments ∧ isBotIssueComment c = true ∧
        ∃ meta n, extractIssueData c.body = some (.obj meta) ∧
          metaGet meta "file" = some (.str f) ∧
          parseIntLineOpt (metaGet meta "line") = some n ∧
          (∀ aid, idOpt = some aid → c.id ≠ aid) ∧ l < n := by
  unfold candidateComments refreshCandidates
  constructor
  · intro h
    rcases List.mem_map.mp h with ⟨t, ht, rfl⟩
    rcases List.mem_filterMap.mp ht with ⟨a, ha, hat⟩
    rcases (candidateEntry_eq_some_iff f l idOpt a t).mp hat with
      ⟨meta, n, rfl, hbot, hex, hfile, hline, hid, hlt⟩
    exact ⟨ha, hbot, meta, n, hex, hfile, hline, hid, hlt⟩
  · rintro ⟨hmem, hbot, meta, n, hex, hfile, hline, hid, hlt⟩
    exact List.mem_map.mpr ⟨(c, meta, n),
      List.mem_filterMap.mpr ⟨c, hmem,
        (candidateEntry_eq_some_iff f l idOpt c (c, meta, n)).mpr
          ⟨meta, n, rfl, hbot, hex, hfile, hline, hid, hlt⟩⟩, rfl⟩

theorem runRefreshAux_length (env : Nat → CursorRes × Bool) (hash : String) :
    ∀ (cands : List (ReviewComment × List (String × PyJson) × Int)) (j : Nat),
    (runRefreshAux env hash j cands).length = cands.length := by
  intro cands
  induction cands with
  | nil => intro j; rfl
  | cons t rest ih => intro j; simp [runRefreshAux, ih]

theorem runRefreshAux_get? (env : Nat → CursorRes × Bool) (hash : String) :
    ∀ (cands : List (ReviewComment × List (String × PyJson) × Int)) (j i : Nat),
    (runRefreshAux env hash j cands).get? i =
      (cands.get? i).map
        (fun t => processCandidate (env (j + i)).1 (env (j + i)).2 hash t.1 t.2.1) := by
  intro cands
  induction cands with
  | nil => intro j i; simp [runRefreshAux]
  | cons t rest ih =>
    intro j i
    cases i with
    | zero => rfl
    | succ i' =>
      show (runRefreshAux env hash (j + 1) rest).get? i' = _
      rw [ih (j + 1) i']
      have harith : j + 1 + i' = j + (i' + 1) := by omega
      rw [harith]
      rfl

theorem outcomeId_processCandidate (cr : CursorRes) (gitOk : Bool) (hash : String)
    (c : ReviewComment) (m : List (String × PyJson)) :
    outcomeId (processCandidate cr gitOk hash c m) = c.id := by
  cases cr with
  | exn => rfl
  | ret r =>
    simp only [processCandidate]
    repeat' split <;> try rfl

theorem runRefreshAux_outcomeId_mem (env : Nat → CursorRes × Bool) (hash : String) :
    ∀ (cands : List (ReviewComment × List (String × PyJson) × Int)) (j : Nat)
      (o : RefreshOutcome), o ∈ runRefreshAux env hash j cands →
    outcomeId o ∈ cands.map (fun t => t.1.id) := by
  intro cands
  induction cands with
  | nil => intro j o h; simp [runRefreshAux] at h
  | cons t rest ih =>
    intro j o h
    simp only [runRefreshAux, List.mem_cons] at h
    rcases h with rfl | h
    · simp [outcomeId_processCandidate]
    · simp only [List.map_cons, List.mem_cons]
      exact Or.inr (ih (j + 1) o h)

theorem noopScan_of_pair :
    ∀ (lines : List String) (i : Nat) (a b : String),
    lines.get? i = some a → lines.get? (i + 1) = some b →
    pyStartsWith a "-" = true → pyStartsWith b "+" = true → strTail a = strTail b →
    noopScan lines = true := by
  intro lines
  induction lines with
  | nil => intro i a b ha; simp at ha
  | cons x rest ih =>
    intro i a b ha hb hsa hsb hteq
    cases i with
    | zero =>
      rw [List.get?_cons_zero] at ha
      rw [List.get?_cons_succ] at hb
      cases rest with
      | nil => simp at hb
      | cons y rest' =>
        rw [List.get?_cons_zero] at hb
        obtain rfl : x = a := Option.some.inj ha
        obtain rfl : y = b := Option.some.inj hb
        simp [noopScan, hsa, hsb, hteq]
    | succ i' =>
      rw [List.get?_cons_succ] at ha hb
      have hrest := ih i' a b ha hb hsa hsb hteq
      cases rest with
      | nil => simp at ha
      | cons y rest' =>
        simp only [noopScan]
        rw [hrest]
        simp

theorem dropLit_append (pre : List Char) :
    ∀ (xs ys : List Char), (dropLit pre xs).isSome → (dropLit pre (xs ++ ys)).isSome := by
  induction pre with
  | nil => intro xs ys _; simp [dropLit]
  | cons p ps ih =>
    intro xs ys h
    cases xs with
    | nil => simp [dropLit] at h
    | cons x xs' =>
      simp only [dropLit, List.cons_append] at *
      by_cases hpx : p == x
      · rw [if_pos hpx] at h ⊢
        exact ih xs' ys h
      · rw [if_neg hpx] at h
        simp at h

theorem pyStartsWith_append_left (s t pre : String) :
    pyStartsWith s pre = true → pyStartsWith (s ++ t) pre = true := by
  intro h
  unfold pyStartsWith at *
  have hl : (s ++ t).toList = s.toList ++ t.toList := by
    simp [String.toList, String.data_append]
  rw [hl]
  simpa using dropLit_append pre.toList s.toList t.toList (by simpa using h)

theorem mkFixedHeader_startsWith (os ns : Nat) (p : Nat × Nat) :
    pyStartsWith (mkFixedHeader os ns p) "@@" = true := by
  unfold mkFixedHeader
  repeat' apply pyStartsWith_append_left
  decide

theorem prefixLines_get?_header :
    ∀ (ls : List String) (b : Bool) (i : Nat) (li : String),
    ls.get? i = some li → pyStartsWith li "@@" = true →
    (prefixLines b ls).get? i = some li := by
  intro ls
  induction ls with
  | nil => intro b i li h; simp at h
  | cons x rest ih =>
    intro b i li h hh
    cases i with
    | zero =>
      rw [List.get?_cons_zero] at h
      obtain rfl : x = li := Option.some.inj h
      simp only [prefixLines]
      rw [if_pos hh]
      rfl
    | succ i' =>
      rw [List.get?_cons_succ] at h
      simp only [prefixLines]
      repeat' split
      · rw [List.get?_cons_succ]; exact ih true i' li h hh
      · rw [List.get?_cons_succ]; exact ih b i' li h hh
      · rw [List.get?_cons_succ]; exact ih b i' li h hh
      · rw [List.get?_cons_succ]; exact ih b i' li h hh
      · rw [List.get?_cons_succ]; exact ih b i' li h hh

theorem fixHeaders_get?_header :
    ∀ (m : List String) (i : Nat) (li : String) (os ns : Nat),
    m.get? i = some li → pyStartsWith li "@@" = true → parseHunkHeader li = some (os, ns) →
    (fixHeaders m).get? i = some (mkFixedHeader os ns (hunkCounts (m.drop (i + 1)))) := by
  intro m
  induction m with
  | nil => intro i li os ns h; simp at h
  | cons x rest ih =>
    intro i li os ns h hh hp
    cases i with
    | zero =>
      rw [List.get?_cons_zero] at h
      obtain rfl : x = li := Option.some.inj h
      simp only [fixHeaders, List.get?_cons_zero, List.drop_succ_cons, List.drop_zero]
      rw [if_pos hh, hp]
    | succ i' =>
      rw [List.get?_cons_succ] at h
      simp only [fixHeaders, List.get?_cons_succ, List.drop_succ_cons]
      exact ih i' li os ns h hh hp

theorem fixHeaders_drop :
    ∀ (m : List String) (k : Nat), (fixHeaders m).drop k = fixHeaders (m.drop k) := by
  intro m
  induction m with
  | nil => intro k; simp [fixHeaders]
  | cons x rest ih =>
    intro k
    cases k with
    | zero => simp
    | succ k' => simp only [fixHeaders, List.drop_succ_cons]; exact ih k'

theorem hunkCounts_fixHeaders : ∀ (m : List String), hunkCounts (fixHeaders m) = hunkCounts m := by
  intro m
  induction m with
  | nil => rfl
  | cons x rest ih =>
    simp only [fixHeaders]
    by_cases hh : pyStartsWith x "@@" = true
    · rw [if_pos hh]
      cases hp : parseHunkHeader x with
      | none => simp only [hunkCounts]; rw [if_pos hh, if_pos hh]
      | some q =>
        simp only [hunkCounts]
        rw [if_pos (mkFixedHeader_startsWith q.1 q.2 (hunkCounts rest)), if_pos hh]
    · rw [if_neg hh]
      simp only [hunkCounts]
      rw [if_neg hh, if_neg hh]
      rw [ih]

theorem afterFirstHeader_prefixLines :
    ∀ (ls : List String), afterFirstHeader (prefixLines false ls) =
      prefixLines true (afterFirstHeader ls) := by
  intro ls
  induction ls with
  | nil => rfl
  | cons x rest ih =>
    by_cases hh : pyStartsWith x "@@" = true
    · have h1 : prefixLines false (x :: rest) = x :: prefixLines true rest := by
        simp only [prefixLines]; rw [if_pos hh]
      have h2 : afterFirstHeader (x :: prefixLines true rest) = prefixLines true rest := by
        simp only [afterFirstHeader]; rw [if_pos hh]
      have h3 : afterFirstHeader (x :: rest) = rest := by
        simp only [afterFirstHeader]; rw [if_pos hh]
      rw [h1, h2, h3]
    · have h1 : prefixLines false (x :: rest) = x :: prefixLines false rest := by
        simp only [prefixLines]; rw [if_neg hh]; simp
      have h2 : afterFirstHeader (x :: prefixLines false rest) =
          afterFirstHeader (prefixLines false rest) := by
        simp only [afterFirstHeader]; rw [if_neg hh]
      have h3 : afterFirstHeader (x :: rest) = afterFirstHeader rest := by
        simp only [afterFirstHeader]; rw [if_neg hh]
      rw [h1, h2, h3, ih]

theorem prefixLines_true_good :
    ∀ (ls : List String) (l : String), l ∈ prefixLines true ls → goodLine l = true := by
  intro ls
  induction ls with
  | nil => intro l h; simp [prefixLines] at h
  | cons x rest ih =>
    intro l h
    by_cases hh : pyStartsWith x "@@" = true
    · rw [show prefixLines true (x :: rest) = x :: prefixLines true rest from by
        simp only [prefixLines]; rw [if_pos hh]] at h
      rcases List.mem_cons.mp h with rfl | h'
      · simp [goodLine, hh]
      · exact ih l h'
    · by_cases hb : pyStrip x == ""
      · rw [show prefixLines true (x :: rest) = x :: prefixLines true rest from by
          simp only [prefixLines]; rw [if_neg hh]; simp [hb]] at h
        rcases List.mem_cons.mp h with rfl | h'
        · simp [goodLine, hb]
        · exact ih l h'
      · by_cases hp : (pyStartsWith x "+" || pyStartsWith x "-" || pyStartsWith x " ") = true
        · rw [show prefixLines true (x :: rest) = x :: prefixLines true rest from by
            simp only [prefixLines]; rw [if_neg hh]; simp [hb, hp]] at h
          rcases List.mem_cons.mp h with rfl | h'
          · simp only [goodLine]
            rcases Bool.or_eq_true_iff.mp hp with hp' | hp'
            · rcases Bool.or_eq_true_iff.mp hp' with hp'' | hp'' <;> simp [hp'']
            · simp [hp']
          · exact ih l h'
        · rw [show prefixLines true (x :: rest) = (" " ++ x) :: prefixLines true rest from by
            simp only [prefixLines]; rw [if_neg hh]; simp [hb, hp]] at h
          rcases List.mem_cons.mp h with rfl | h'
          · have : pyStartsWith (" " ++ x) " " = true :=
              pyStartsWith_append_left " " x " " (by decide)
            simp [goodLine, this]
          · exact ih l h'

theorem afterFirstHeader_fixHeaders :
    ∀ (m : List String), afterFirstHeader (fixHeaders m) = fixHeaders (afterFirstHeader m) := by
  intro m
  induction m with
  | nil => rfl
  | cons x rest ih =>
    by_cases hh : pyStartsWith x "@@" = true
    · cases hp : parseHunkHeader x with
      | none =>
        rw [show fixHeaders (x :: rest) = x :: fixHeaders rest from by
          simp only [fixHeaders]; rw [if_pos hh, hp]]
        rw [show afterFirstHeader (x :: fixHeaders rest) = fixHeaders rest from by
          simp only [afterFirstHeader]; rw [if_pos hh]]
        rw [show afterFirstHeader (x :: rest) = rest from by
          simp only [afterFirstHeader]; rw [if_pos hh]]
      | some q =>
        rw [show fixHeaders (x :: rest) =
            mkFixedHeader q.1 q.2 (hunkCounts rest) :: fixHeaders rest from by
          simp only [fixHeaders]; rw [if_pos hh, hp]]
        rw [show afterFirstHeader (mkFixedHeader q.1 q.2 (hunkCounts rest) :: fixHeaders rest) =
            fixHeaders rest from by
          simp only [afterFirstHeader]
          rw [if_pos (mkFixedHeader_startsWith q.1 q.2 (hunkCounts rest))]]
        rw [show afterFirstHeader (x :: rest) = rest from by
          simp only [afterFirstHeader]; rw [if_pos hh]]
    · rw [show fixHeaders (x :: rest) = x :: fixHeaders rest from by
        simp only [fixHeaders]; rw [if_neg hh]]
      rw [show afterFirstHeader (x :: fixHeaders rest) = afterFirstHeader (fixHeaders rest) from by
        simp only [afterFirstHeader]; rw [if_neg hh]]
      rw [show afterFirstHeader (x :: rest) = afterFirstHeader rest from by
        simp only [afterFirstHeader]; rw [if_neg hh]]
      exact ih

theorem fixHeaders_good :
    ∀ (m : List String), (∀ l ∈ m, goodLine l = true) →
    ∀ l ∈ fixHeaders m, goodLine l = true := by
  intro m
  induction m with
  | nil => intro _ l h; simp [fixHeaders] at h
  | cons x rest ih =>
    intro hall l h
    by_cases hh : pyStartsWith x "@@" = true
    · cases hp : parseHunkHeader x with
      | none =>
        rw [show fixHeaders (x :: rest) = x :: fixHeaders rest from by
          simp only [fixHeaders]; rw [if_pos hh, hp]] at h
        rcases List.mem_cons.mp h with rfl | h'
        · exact hall l (List.mem_cons_self _ _)
        · exact ih (fun l' hl' => hall l' (List.mem_cons_of_mem _ hl')) l h'
      | some q =>
        rw [show fixHeaders (x :: rest) =
            mkFixedHeader q.1 q.2 (hunkCounts rest) :: fixHeaders rest from by
          simp only [fixHeaders]; rw [if_pos hh, hp]] at h
        rcases List.mem_cons.mp h with rfl | h'
        · simp [goodLine, mkFixedHeader_startsWith]
        · exact ih (fun l' hl' => hall l' (List.mem_cons_of_mem _ hl')) l h'
    · rw [show fixHeaders (x :: rest) = x :: fixHeaders rest from by
        simp only [fixHeaders]; rw [if_neg hh]] at h
      rcases List.mem_cons.mp h with rfl | h'
      · exact hall l (List.mem_cons_self _ _)
      · exact ih (fun l' hl' => hall l' (List.mem_cons_of_mem _ hl')) l h'

/-! ### Claim theorems -/

/-- C2 (code bug evidence): with a `file_hash` supplied whose value differs
from the file's current content hash (`verify_file_unchanged` would return
`false`), `apply_patch` does not fail with a stale-file error — no such
return path exists — but proceeds to `git apply` and succeeds: the hash is
never consulted. -/
theorem c2_hash_mismatch_does_not_block_apply :
    verifyFileUnchanged true "hashB" "hashA" = false ∧
    applyPatch true "src/app.py" "@@ -1,1 +1,1 @@\n-old\n+new" (some "hashA")
      (fun _ => true) = .applied :=
  ⟨rfl, rfl⟩

/-- C3 (counterexample): a patch with a removed line and an added line whose
post-prefix content is byte-identical is accepted (`True`) by
`validate_patch_format` in `validate_patch.py`, not rejected as the claim
states. -/
theorem c3_counterexample :
    pyStartsWith "-foo" "-" = true ∧ pyStartsWith "+foo" "+" = true ∧
    strTail "-foo" = strTail "+foo" ∧
    validatePatchFormat "@@ -1,1 +1,1 @@\n-foo\n+foo" = true :=
  ⟨rfl, rfl, rfl, rfl⟩

/-- C3 (amended): the no-op rejection lives in the applier's validator
`PatchApplier._validate_patch_format` and fires on adjacent pairs: whenever
some line of the patch starts with `-` and the next line starts with `+` with
byte-identical content after the prefix, `_validate_patch_format` returns
`False`. -/
theorem c3_amended (patch : String) (i : Nat) (a b : String)
    (ha : (splitNl patch).get? i = some a) (hb : (splitNl patch).get? (i + 1) = some b)
    (hsa : pyStartsWith a "-" = true) (hsb : pyStartsWith b "+" = true)
    (hteq : strTail a = strTail b) :
    (mainValidatePatchFormat patch).1 = false := by
  have hscan := noopScan_of_pair (splitNl patch) i a b ha hb hsa hsb hteq
  unfold mainValidatePatchFormat
  cases hsp : splitNl patch with
  | nil => simp [hsp] at ha
  | cons x rest =>
    rw [hsp] at hscan
    by_cases hhead : (x :: rest).any (fun l => pyStartsWith l "@@") = true
    · simp only [hhead, hscan, Bool.not_true, Bool.false_eq_true, if_false, if_true]
    · simp only [Bool.not_eq_true] at hhead
      simp [hhead]

/-- C3 (witness for the amended theorem at a concrete patch). -/
theorem c3_amended_witness :
    (splitNl "@@ -1,2 +1,2 @@\n-x\n+x").get? 1 = some "-x" ∧
    (splitNl "@@ -1,2 +1,2 @@\n-x\n+x").get? 2 = some "+x" ∧
    (mainValidatePatchFormat "@@ -1,2 +1,2 @@\n-x\n+x").1 = false :=
  ⟨rfl, rfl, c3_amended "@@ -1,2 +1,2 @@\n-x\n+x" 1 "-x" "+x" rfl rfl rfl rfl rfl⟩

/-- C6 (code bug evidence): `STATUS_RE`'s `\w+` cannot match the hyphen of
`gc-integrated`, so the very marker `status_marker` writes for that state
decodes to `None` and the `_cmd_check` gate reports `should_apply = true`,
although the claim (and the `state in (STATE_APPLIED, STATE_GC_INTEGRATED)`
test in the source itself) requires `false`. -/
theorem c6_gc_integrated_marker_not_recognized :
    statusMarker "gc-integrated" = "<!-- STATUS: gc-integrated -->" ∧
    getCommentState "<!-- STATUS: gc-integrated -->" = none ∧
    checkShouldApply "<!-- STATUS: gc-integrated -->" = true :=
  ⟨rfl, rfl, rfl⟩

/-- C7 (code bug evidence): setting state `gc-integrated` twice is not
idempotent — the second call cannot find the marker the first call wrote
(`STATUS_RE`'s `\w+` stops at the hyphen) and appends a duplicate STATUS
marker; for the same reason `_cmd_set`'s already-in-state guard never fires
for `gc-integrated`, so it PATCHes the comment again. -/
theorem c7_set_state_not_idempotent :
    setCommentStateBody "hello" "gc-integrated" =
      some "hello\n\n<!-- STATUS: gc-integrated -->\n" ∧
    setCommentStateBody "hello\n\n<!-- STATUS: gc-integrated -->\n" "gc-integrated" =
      some "hello\n\n<!-- STATUS: gc-integrated -->\n\n<!-- STATUS: gc-integrated -->\n" ∧
    "hello\n\n<!-- STATUS: gc-integrated -->\n" ≠
      "hello\n\n<!-- STATUS: gc-integrated -->\n\n<!-- STATUS: gc-integrated -->\n" ∧
    getCommentState "hello\n\n<!-- STATUS: gc-integrated -->\n" = none ∧
    cmdSetWrites "hello\n\n<!-- STATUS: gc-integrated -->\n" "gc-integrated" = true :=
  ⟨rfl, rfl, by decide, rfl, rfl⟩

/-- C8 (code bug evidence): `replace_issue_data` passes the serialized JSON
through `re.sub`'s replacement-template processing, which turns the
two-character escape `\n` (produced by `json.dumps` for the newline inside the
patch) into a raw newline; the resulting ISSUE_DATA payload is invalid JSON,
so `extract_issue_data` returns `None` instead of the encoded issue — the
round-trip of the claim fails. -/
theorem c8_replace_then_extract_loses_issue :
    replaceIssueData "x <!-- ISSUE_DATA: \x7b\x7d --> y" (.obj [("patch", .str "a\nb")]) =
      some "x <!-- ISSUE_DATA: \x7b\"patch\":\"a\nb\"\x7d --> y" ∧
    extractIssueData "x <!-- ISSUE_DATA: \x7b\"patch\":\"a\nb\"\x7d --> y" = none :=
  ⟨rfl, rfl⟩

/-- C10: a STATUS marker whose state word is outside
`{analyzed, applied, gc-integrated}` decodes to `None` — the same value as no
marker at all — so `is_analyzed_state` holds and the `_cmd_check` gate permits
the apply. -/
theorem c10_unknown_status_word_treated_as_analyzed
    (body : String) (s e : Nat) (w : String)
    (hfind : statusFind body = some (s, e, w))
    (hunknown : COMMENT_STATES.contains (pyLower (pyStrip w)) = false) :
    getCommentState body = none ∧ isAnalyzedState body = true ∧
    checkShouldApply body = true := by
  have hne : ¬ (body == "") = true := by
    intro hb
    have hbody : body = "" := by simpa using hb
    rw [hbody] at hfind
    have hnone : statusFind "" = none := rfl
    rw [hnone] at hfind
    exact Option.noConfusion hfind
  have hget : getCommentState body = none := by
    unfold getCommentState
    rw [if_neg hne, hfind]
    simp only [hunknown, Bool.false_eq_true, if_false]
  exact ⟨hget, by simp [isAnalyzedState, hget], by simp [checkShouldApply, hget]⟩

/-- C10 (witness): the misspelled marker `aplied` of the claim. -/
theorem c10_witness :
    statusFind "<!-- STATUS: aplied -->" = some (0, 23, "aplied") ∧
    COMMENT_STATES.contains (pyLower (pyStrip "aplied")) = false ∧
    (getCommentState "<!-- STATUS: aplied -->" = none ∧
      isAnalyzedState "<!-- STATUS: aplied -->" = true ∧
      checkShouldApply "<!-- STATUS: aplied -->" = true) :=
  ⟨rfl, rfl, c10_unknown_status_word_treated_as_analyzed
    "<!-- STATUS: aplied -->" 0 23 "aplied" rfl rfl⟩

/-- C1 (counterexample): a bot issue comment whose decoded state is `applied`,
sitting on the applied file at a strictly later line, is included in the
Refresh Engine's candidate set — the filter never consults the STATUS state —
and a successful refresh of it rewrites its ISSUE_DATA block (an `updated`
outcome with a changed body). -/
theorem c1_counterexample :
    getCommentState appliedStateComment.body = some "applied" ∧
    candidateComments "F" 10 (some 7) [appliedStateComment] = [appliedStateComment] ∧
    processCandidate (.ret (.obj [("patch", .str "@@ -1,1 +1,1 @@\n-a\n+b")])) true "h0"
      appliedStateComment [("file", .str "F"), ("line", .int 20)] =
      .updated 99 ("**🤖 x\n<!-- ISSUE_DATA: \x7b\"file\":\"F\",\"line\":20,\"patch\":\"@@ -1,1 +1,1 @@\n-a\n+b\",\"file_hash\":\"h0\"\x7d -->\n<!-- STATUS: applied -->") ∧
    ("**🤖 x\n<!-- ISSUE_DATA: \x7b\"file\":\"F\",\"line\":20,\"patch\":\"@@ -1,1 +1,1 @@\n-a\n+b\",\"file_hash\":\"h0\"\x7d -->\n<!-- STATUS: applied -->") ≠
      appliedStateComment.body :=
  ⟨rfl, rfl, rfl, by decide⟩

/-- C1 (amended): the candidate filter ignores the comment's decoded state: a
comment in `applied` (or `gc-integrated`) state is still a candidate whenever
it passes the bot heuristic, decodes to an issue on the applied file whose
line parses strictly past the applied line, and is not the applied parent
comment itself (by id). -/
theorem c1_amended (appliedFile : String) (appliedLine : Int) (appliedId : Option Int)
    (comments : List ReviewComment) (c : ReviewComment)
    (meta : List (String × PyJson)) (n : Int)
    (hstate : getCommentState c.body = some "applied" ∨
      getCommentState c.body = some "gc-integrated")
    (hmem : c ∈ comments) (hbot : isBotIssueComment c = true)
    (hex : extractIssueData c.body = some (.obj meta))
    (hfile : metaGet meta "file" = some (.str appliedFile))
    (hline : parseIntLineOpt (metaGet meta "line") = some n)
    (hid : ∀ aid, appliedId = some aid → c.id ≠ aid)
    (hlt : appliedLine < n) :
    c ∈ candidateComments appliedFile appliedLine appliedId comments :=
  (mem_candidateComments_iff appliedFile appliedLine appliedId comments c).mpr
    ⟨hmem, hbot, meta, n, hex, hfile, hline, hid, hlt⟩

/-- C1 (witness for the amended theorem): the `applied`-state comment of the
counterexample, via the amended theorem. -/
theorem c1_amended_witness :
    getCommentState appliedStateComment.body = some "applied" ∧
    appliedStateComment ∈ candidateComments "F" 10 (some 7) [appliedStateComment] :=
  ⟨rfl, c1_amended "F" 10 (some 7) [appliedStateComment] appliedStateComment
    [("file", .str "F"), ("line", .int 20)] 20
    (Or.inl rfl) (List.mem_singleton.mpr rfl) rfl rfl rfl rfl
    (fun aid haid => by cases haid; decide) (by decide)⟩

/-- C4 (counterexample): a comment that satisfies every condition the claim
names — bot-authored, same file, line parsing strictly past the applied line —
but whose id equals the supplied applied-parent id is excluded from the
candidate set, so the claimed set equality fails. -/
theorem c4_counterexample :
    isBotIssueComment sameIdComment = true ∧
    extractIssueData sameIdComment.body =
      some (.obj [("file", .str "F"), ("line", .int 20)]) ∧
    metaGet [("file", .str "F"), ("line", .int 20)] "file" = some (.str "F") ∧
    parseIntLineOpt (metaGet [("file", .str "F"), ("line", .int 20)] "line") = some 20 ∧
    (10 : Int) < 20 ∧
    candidateComments "F" 10 (some 7) [sameIdComment] = [] :=
  ⟨rfl, rfl, rfl, rfl, by decide, rfl⟩

/-- C4 (amended): the candidate set is exactly the bot-authored issue comments
that decode to the applied file with a line parsing strictly past the applied
line and whose id differs from the supplied applied-parent id; and every
outcome of the refresh loop concerns a candidate, so comments outside the set
are never updated. -/
theorem c4_amended (appliedFile : String) (appliedLine : Int) (appliedId : Option Int)
    (comments : List ReviewComment) :
    (∀ c, c ∈ candidateComments appliedFile appliedLine appliedId comments ↔
      (c ∈ comments ∧ isBotIssueComment c = true ∧
        ∃ meta n, extractIssueData c.body = some (.obj meta) ∧
          metaGet meta "file" = some (.str appliedFile) ∧
          parseIntLineOpt (metaGet meta "line") = some n ∧
          (∀ aid, appliedId = some aid → c.id ≠ aid) ∧ appliedLine < n)) ∧
    (∀ (env : Nat → CursorRes × Bool) (hash : String) (o : RefreshOutcome),
      o ∈ runRefresh env hash (refreshCandidates appliedFile appliedLine appliedId comments) →
      outcomeId o ∈
        (candidateComments appliedFile appliedLine appliedId comments).map
          ReviewComment.id) := by
  constructor
  · intro c
    exact mem_candidateComments_iff appliedFile appliedLine appliedId comments c
  · intro env hash o h
    have hm := runRefreshAux_outcomeId_mem env hash
      (refreshCandidates appliedFile appliedLine appliedId comments) 0 o h
    simpa [candidateComments, List.map_map, Function.comp] using hm

/-- C4 (witness for the amended theorem): a downstream comment enters the
candidate set through the characterization. -/
theorem c4_amended_witness :
    downstreamComment ∈ candidateComments "F" 10 (some 7) [downstreamComment] :=
  ((c4_amended "F" 10 (some 7) [downstreamComment]).1 downstreamComment).mpr
    ⟨List.mem_singleton.mpr rfl, rfl,
      [("file", .str "F"), ("line", .int 30)], 30, rfl, rfl, rfl,
      fun aid haid => by cases haid; decide, by decide⟩

/-- C5: one candidate's failure (exception, no patch, validation failure, or
dry-run apply failure — every path recorded as `.failed`) leaves that
candidate's comment body unchanged, does not prevent any other candidate from
being attempted (one outcome per candidate), is counted in the failure
summary, and the refresh process still exits with code 0. -/
theorem c5_single_failure_is_isolated (env : Nat → CursorRes × Bool) (hash : String)
    (cands : List (ReviewComment × List (String × PyJson) × Int)) (i : Nat)
    (c : ReviewComment) (m : List (String × PyJson)) (ln : Int)
    (hget : cands.get? i = some (c, m, ln))
    (hfail : processCandidate (env i).1 (env i).2 hash c m = .failed c.id) :
    (runRefresh env hash cands).get? i = some (.failed c.id) ∧
    (runRefresh env hash cands).length = cands.length ∧
    1 ≤ countFailed (runRefresh env hash cands) ∧
    refreshExitCode (countFailed (runRefresh env hash cands)) = 0 ∧
    finalBody c (((runRefresh env hash cands).get? i).getD (.failed c.id)) = c.body := by
  have hg : (runRefresh env hash cands).get? i = some (.failed c.id) := by
    unfold runRefresh
    rw [runRefreshAux_get? env hash cands 0 i, hget]
    simp [hfail]
  refine ⟨hg, runRefreshAux_length env hash cands 0, ?_, ?_, ?_⟩
  · have hmem : RefreshOutcome.failed c.id ∈ runRefresh env hash cands := List.get?_mem hg
    unfold countFailed
    exact List.countP_pos_iff.mpr ⟨_, hmem, rfl⟩
  · unfold refreshExitCode
    split <;> rfl
  · rw [hg]
    rfl

/-- C5 (witness): three downstream candidates, the second of which fails its
dry-run apply; it yields a `.failed` outcome with its body untouched, all
three are attempted, and the exit code is 0. -/
theorem c5_witness :
    batchCandidates.get? 1 = some (refreshComment 22 15, refreshMeta 15, 15) ∧
    ((runRefresh batchEnv "h0" batchCandidates).get? 1 =
        some (.failed (refreshComment 22 15).id) ∧
      (runRefresh batchEnv "h0" batchCandidates).length = batchCandidates.length ∧
      1 ≤ countFailed (runRefresh batchEnv "h0" batchCandidates) ∧
      refreshExitCode (countFailed (runRefresh batchEnv "h0" batchCandidates)) = 0 ∧
      finalBody (refreshComment 22 15)
        (((runRefresh batchEnv "h0" batchCandidates).get? 1).getD
          (.failed (refreshComment 22 15).id)) = (refreshComment 22 15).body) :=
  ⟨rfl, c5_single_failure_is_isolated batchEnv "h0" batchCandidates 1
    (refreshComment 22 15) (refreshMeta 15) 15 rfl rfl⟩

/-- C9 (counterexample): `fix_patch_format` leaves a whitespace-only line
(`"\t"`) after the hunk header without a leading space — contradicting the
claim that every line not already prefixed receives one — and its recomputed
counts skip that line. -/
theorem c9_counterexample :
    fixPatchFormat "@@ -1,3 +1,3 @@\nfoo\n\t\nbar" = "@@ -1,2 +1,2 @@\n foo\n\t\n bar" ∧
    (splitNl "@@ -1,2 +1,2 @@\n foo\n\t\n bar").get? 2 = some "\t" ∧
    (pyStartsWith "\t" "+" || pyStartsWith "\t" "-" || pyStartsWith "\t" " ") = false :=
  ⟨rfl, rfl, rfl⟩

/-- C9 (amended): after the fix, every line following the first hunk header is
prefixed with `+`/`-`/space, is a hunk header, or is whitespace-only
(whitespace-only lines pass through unprefixed); and every parseable hunk
header is rewritten with `oldCount`/`newCount` equal to the literal counts of
`-`/`+`/context lines (skipping whitespace-only lines) that follow it in the
fixed patch. -/
theorem c9_amended (lines : List String) :
    (∀ l ∈ afterFirstHeader (fixPatchLines lines), goodLine l = true) ∧
    (∀ (i : Nat) (li : String) (os ns : Nat),
      lines.get? i = some li → pyStartsWith li "@@" = true →
      parseHunkHeader li = some (os, ns) →
      (fixPatchLines lines).get? i =
        some (mkFixedHeader os ns (hunkCounts ((fixPatchLines lines).drop (i + 1))))) := by
  constructor
  · intro l hl
    unfold fixPatchLines at hl
    rw [afterFirstHeader_fixHeaders, afterFirstHeader_prefixLines] at hl
    exact fixHeaders_good _ (prefixLines_true_good _) l hl
  · intro i li os ns hget hh hp
    unfold fixPatchLines
    have h1 := prefixLines_get?_header lines false i li hget hh
    have h2 := fixHeaders_get?_header (prefixLines false lines) i li os ns h1 hh hp
    rw [h2, fixHeaders_drop, hunkCounts_fixHeaders]

/-- C9 (witness for the amended theorem): a concrete single-hunk patch with a
context, a removed, and an added line; the header is rewritten with the counts
of the fixed patch. -/
theorem c9_amended_witness :
    (["@@ -5,7 +5,7 @@", "ctx", "-a", "+b"].get? 0 = some "@@ -5,7 +5,7 @@") ∧
    pyStartsWith "@@ -5,7 +5,7 @@" "@@" = true ∧
    parseHunkHeader "@@ -5,7 +5,7 @@" = some (5, 5) ∧
    (fixPatchLines ["@@ -5,7 +5,7 @@", "ctx", "-a", "+b"]).get? 0 =
      some (mkFixedHeader 5 5
        (hunkCounts ((fixPatchLines ["@@ -5,7 +5,7 @@", "ctx", "-a", "+b"]).drop 1))) :=
  ⟨rfl, rfl, rfl,
    (c9_amended ["@@ -5,7 +5,7 @@", "ctx", "-a", "+b"]).2 0 "@@ -5,7 +5,7 @@" 5 5 rfl rfl rfl⟩
